import Mathlib

/-!
Verification of the core of the web-utils repository: the retrying HTTP
request executor with decorrelated-jitter backoff (utils.go) and the
channel-backed bounded-resource semaphore (semaphore.go), embedded
shallowly in Lean.

Conventions of the embedding:
* Go `int` is `Int`; byte slices are `List Nat`; `nil` errors are `none`.
* `rand.Intn n` is modelled by an explicit draw `r` supplied as input; a
  call that would panic (`n ≤ 0`) is modelled by returning `none`, and the
  panic propagates through the retry loop as `none`.
* the HTTP transport (`http.Client.Do`) is an injected function from the
  attempt index to its outcome; `time.Sleep` is recorded in a trace of
  sleep durations; the bytes the transport reads from the request body
  stream on each attempt are recorded in a trace of sent bodies.
-/

namespace WebUtils

/-- An error value as seen by the Go code: a `net.Error` carries a
`Timeout()` flag, any other error does not. The `id` field distinguishes
distinct error values. -/
inductive GoError where
  | netError (timeout : Bool) (id : Nat)
  | generic (id : Nat)
  deriving DecidableEq, Repr

/-- utils.go `IsTimeoutErr`: casts the error to `net.Error` and returns
`Timeout()`; a non-`net.Error` yields false. -/
def IsTimeoutErr : GoError → Bool
  | .netError t _ => t
  | .generic _ => false

/-- utils.go `ShouldRetry`: true for http 408 (`http.StatusRequestTimeout`)
and for 500..599. -/
def ShouldRetry (statusCode : Int) : Bool :=
  statusCode == 408 || (statusCode >= 500 && statusCode <= 599)

/-- utils.go `Backoff`: configuration of the decorrelated-jitter backoff. -/
structure Backoff where
  BaseSleep : Int
  MaxSleep : Int
  deriving DecidableEq, Repr

/-- utils.go `Backoff.Next`. `r` models the draw returned by
`rand.Intn(previous*3 - b.BaseSleep)` (after `previous` has been clamped
up to `BaseSleep`); the result is `none` exactly when `rand.Intn` would
panic, i.e. when its argument is `≤ 0`. -/
def Backoff.Next (b : Backoff) (previous r : Int) : Option Int :=
  if (if previous ≤ b.BaseSleep then b.BaseSleep else previous) * 3 - b.BaseSleep ≤ 0 then
    none
  else if r + b.BaseSleep > b.MaxSleep then
    some b.MaxSleep
  else
    some (r + b.BaseSleep)

/-- What `http.Client.Do` hands back when it does return a response:
the status code, the bytes `ioutil.ReadAll` obtains from the body, and
the error `ReadAll` returns, if any. -/
structure Response where
  StatusCode : Int
  bodyBytes : List Nat
  readErr : Option GoError
  deriving DecidableEq, Repr

/-- The named return values of `SafeClient.RequestWithClose`, instrumented
with whether `resp.Body.Close()` ever ran during the call. -/
structure RWCResult where
  status : Int
  body : List Nat
  err : Option GoError
  bodyClosed : Bool
  deriving DecidableEq, Repr

/-- utils.go `SafeClient.RequestWithClose`. The source declares
`var resp *http.Response`, then checks `if resp != nil { defer resp.Body.Close() }`
BEFORE `resp, err = c.Do(req)` assigns it, so the deferred Close is
registered iff the still-nil pointer is non-nil. `doResult` is the
outcome of `c.Do(req)`. -/
def RequestWithClose (doResult : Except GoError Response) : RWCResult :=
  let resp0 : Option Response := none
  let deferClose := resp0.isSome
  match doResult with
  | .error e => { status := 0, body := [], err := some e, bodyClosed := deferClose }
  | .ok resp =>
    { status := resp.StatusCode, body := resp.bodyBytes, err := resp.readErr,
      bodyClosed := deferClose }

/-- utils.go `SafeClient`: a `TimeoutOnly` flag with an embedded `Backoff`
(the embedded `http.Client` is modelled by the injected transport at each
call site). -/
structure SafeClient extends Backoff where
  TimeoutOnly : Bool
  deriving DecidableEq, Repr

/-- utils.go `StdClient`: `TimeoutOnly = true`, `Backoff{100, 5000}`. -/
def StdClient : SafeClient :=
  { TimeoutOnly := true, BaseSleep := 100, MaxSleep := 5000 }

/-- The four named returns of the retry executors, instrumented with the
trace of sleeps performed and the trace of body bytes the transport read
from the request stream on each attempt. -/
structure RetryResult where
  tries : Int
  status : Int
  body : List Nat
  err : Option GoError
  sleeps : List Int
  sentBodies : List (List Nat)
  deriving DecidableEq, Repr

/-- The loop of utils.go `SafeClient.RequestWithRetry`
(`for ; tries < maxTries; tries++`). `fuel` is the number of remaining
iterations; `transport i` is the outcome of `c.Do` on attempt `i`;
`rng i` is the `rand.Intn` draw inside `c.Next` on attempt `i`;
`reqBody` is what remains of the single request's body stream, which a
send consumes. `none` models a `rand.Intn` panic propagating out. -/
def retryLoop (c : SafeClient) (transport : Int → Except GoError Response)
    (rng : Int → Int) (fuel : Nat) (tries wait status : Int) (body : List Nat)
    (err : Option GoError) (reqBody : List Nat) (sleeps : List Int)
    (sent : List (List Nat)) : Option RetryResult :=
  match fuel with
  | 0 => some { tries := tries - 1, status, body, err, sleeps, sentBodies := sent }
  | fuel + 1 =>
    match c.toBackoff.Next wait (rng tries) with
    | none => none
    | some wait1 =>
      let r := RequestWithClose (transport tries)
      let sent1 := sent ++ [reqBody]
      match r.err with
      | some e =>
        if !c.TimeoutOnly || IsTimeoutErr e then
          retryLoop c transport rng fuel (tries + 1) wait1 r.status r.body (some e)
            [] (sleeps ++ [wait1]) sent1
        else
          some { tries, status := r.status, body := r.body, err := some e,
                 sleeps, sentBodies := sent1 }
      | none =>
        if ShouldRetry r.status then
          retryLoop c transport rng fuel (tries + 1) wait1 r.status r.body none
            [] (sleeps ++ [wait1]) sent1
        else
          some { tries, status := r.status, body := r.body, err := none,
                 sleeps, sentBodies := sent1 }

/-- utils.go `SafeClient.RequestWithRetry`: runs the loop on the SAME
request value every attempt; `reqBody` is the request's body stream at
entry (consumed by the first send). -/
def RequestWithRetry (c : SafeClient) (reqBody : List Nat)
    (transport : Int → Except GoError Response) (rng : Int → Int)
    (maxTries : Int) : Option RetryResult :=
  retryLoop c transport rng maxTries.toNat 0 0 0 [] none reqBody [] []

/-- The loop of utils.go `SafeClient.DoRequest`: a new request is built
from `(method, url, content)` on every iteration, so every attempt sends
the full `content`; `newReqErr` models `http.NewRequest` failing for this
method/url (checked, with an immediate return, before `c.Next` runs). -/
def doRequestLoop (c : SafeClient) (content : List Nat)
    (newReqErr : Option GoError) (transport : Int → Except GoError Response)
    (rng : Int → Int) (fuel : Nat) (tries wait status : Int) (body : List Nat)
    (err : Option GoError) (sleeps : List Int) (sent : List (List Nat)) :
    Option RetryResult :=
  match fuel with
  | 0 => some { tries := tries - 1, status, body, err, sleeps, sentBodies := sent }
  | fuel + 1 =>
    match newReqErr with
    | some e => some { tries, status, body, err := some e, sleeps, sentBodies := sent }
    | none =>
      match c.toBackoff.Next wait (rng tries) with
      | none => none
      | some wait1 =>
        let r := RequestWithClose (transport tries)
        let sent1 := sent ++ [content]
        match r.err with
        | some e =>
          if !c.TimeoutOnly || IsTimeoutErr e then
            doRequestLoop c content newReqErr transport rng fuel (tries + 1) wait1
              r.status r.body (some e) (sleeps ++ [wait1]) sent1
          else
            some { tries, status := r.status, body := r.body, err := some e,
                   sleeps, sentBodies := sent1 }
        | none =>
          if ShouldRetry r.status then
            doRequestLoop c content newReqErr transport rng fuel (tries + 1) wait1
              r.status r.body none (sleeps ++ [wait1]) sent1
          else
            some { tries, status := r.status, body := r.body, err := none,
                   sleeps, sentBodies := sent1 }

/-- utils.go `SafeClient.DoRequest`. -/
def DoRequest (c : SafeClient) (content : List Nat) (newReqErr : Option GoError)
    (transport : Int → Except GoError Response) (rng : Int → Int)
    (maxTries : Int) : Option RetryResult :=
  doRequestLoop c content newReqErr transport rng maxTries.toNat 0 0 0 [] none [] []

/-- An attempt outcome on which the executors sleep and continue: either
the send errored and `!c.TimeoutOnly || IsTimeoutErr(err)` holds, or a
status was received and `ShouldRetry` holds. -/
def retryableOutcome (timeoutOnly : Bool) (d : Except GoError Response) : Bool :=
  match (RequestWithClose d).err with
  | some e => !timeoutOnly || IsTimeoutErr e
  | none => ShouldRetry (RequestWithClose d).status

/-- semaphore.go `semaphore`: the buffered channel is modelled by its
length (`count`) and capacity (`cap`); `closed` is the close flag. -/
structure Sem where
  count : Nat
  cap : Nat
  closed : Bool
  deriving DecidableEq, Repr

/-- semaphore.go `NewSemaphore(n)`: empty channel of capacity `n`, open. -/
def NewSemaphore (n : Nat) : Sem :=
  { count := 0, cap := n, closed := false }

/-- semaphore.go `semaphore.Obtain`: returns false at once when closed;
otherwise a `select` races the channel send against `ctx.Done()`. `acq`
resolves the nondeterminism: the send branch can win only when the buffer
has room, and then the count rises by one; in every other resolution
(cancellation fired, or the call would have kept blocking) the state is
unchanged and the result is false. -/
def Sem.Obtain (s : Sem) (acq : Bool) : Bool × Sem :=
  if s.closed then (false, s)
  else if acq && decide (s.count < s.cap) then (true, { s with count := s.count + 1 })
  else (false, s)

/-- semaphore.go `semaphore.Release`: a `select` with a `default` branch;
receives from the channel iff it is non-empty, never blocks. -/
def Sem.Release (s : Sem) : Bool × Sem :=
  if 0 < s.count then (true, { s with count := s.count - 1 })
  else (false, s)

/-- semaphore.go `semaphore.Capacity`: `cap(s.sem)`. -/
def Sem.Capacity (s : Sem) : Nat := s.cap

/-- semaphore.go `semaphore.Count`: `len(s.sem)`. -/
def Sem.Count (s : Sem) : Nat := s.count

/-- semaphore.go `semaphore.Close`: sets the flag; cannot be undone. -/
def Sem.Close (s : Sem) : Sem := { s with closed := true }

/-- semaphore.go `semaphore.Closed`. -/
def Sem.Closed (s : Sem) : Bool := s.closed

/-- One operation of a client of the semaphore; `obtain acq` carries the
resolution of the select inside `Obtain`. -/
inductive SemOp where
  | obtain (acq : Bool)
  | release
  | close
  deriving DecidableEq, Repr

/-- The state transition of one operation (the returned Bool dropped). -/
def Sem.step (s : Sem) (op : SemOp) : Sem :=
  match op with
  | .obtain a => (s.Obtain a).2
  | .release => s.Release.2
  | .close => s.Close

/-- Run a sequence of operations from a state. -/
def Sem.run (s : Sem) (ops : List SemOp) : Sem :=
  List.foldl Sem.step s ops

/-! ## Helper lemmas -/

/-- With a positive `BaseSleep` the sampling range of `Backoff.Next` is
never empty, so `rand.Intn` cannot panic. -/
theorem Backoff.next_isSome (b : Backoff) (previous r : Int) (hbase : 0 < b.BaseSleep) :
    ∃ w, b.Next previous r = some w := by
  unfold Backoff.Next
  by_cases hc : previous ≤ b.BaseSleep
  · rw [if_pos hc, if_neg (by omega)]
    by_cases hm : r + b.BaseSleep > b.MaxSleep
    · exact ⟨b.MaxSleep, by rw [if_pos hm]⟩
    · exact ⟨r + b.BaseSleep, by rw [if_neg hm]⟩
  · rw [if_neg hc, if_neg (by omega)]
    by_cases hm : r + b.BaseSleep > b.MaxSleep
    · exact ⟨b.MaxSleep, by rw [if_pos hm]⟩
    · exact ⟨r + b.BaseSleep, by rw [if_neg hm]⟩

/-- One semaphore operation keeps the count within capacity and never
changes the capacity. -/
theorem Sem.step_preserves (s : Sem) (op : SemOp) (h : s.count ≤ s.cap) :
    (s.step op).count ≤ (s.step op).cap ∧ (s.step op).cap = s.cap := by
  cases op with
  | obtain a =>
    show (s.Obtain a).2.count ≤ (s.Obtain a).2.cap ∧ (s.Obtain a).2.cap = s.cap
    unfold Sem.Obtain
    by_cases hcl : s.closed = true
    · rw [if_pos hcl]; exact ⟨h, rfl⟩
    · rw [if_neg hcl]
      by_cases hac : (a && decide (s.count < s.cap)) = true
      · rw [if_pos hac]
        simp only [Bool.and_eq_true, decide_eq_true_eq] at hac
        refine ⟨?_, rfl⟩
        show s.count + 1 ≤ s.cap
        omega
      · rw [if_neg hac]; exact ⟨h, rfl⟩
  | release =>
    show s.Release.2.count ≤ s.Release.2.cap ∧ s.Release.2.cap = s.cap
    unfold Sem.Release
    by_cases hc : 0 < s.count
    · rw [if_pos hc]
      refine ⟨?_, rfl⟩
      show s.count - 1 ≤ s.cap
      omega
    · rw [if_neg hc]; exact ⟨h, rfl⟩
  | close => exact ⟨h, rfl⟩

/-- Running any sequence of operations keeps the count within capacity
and never changes the capacity. -/
theorem Sem.run_preserves (ops : List SemOp) :
    ∀ s : Sem, s.count ≤ s.cap →
      (s.run ops).count ≤ (s.run ops).cap ∧ (s.run ops).cap = s.cap := by
  induction ops with
  | nil => intro s h; exact ⟨h, rfl⟩
  | cons op ops ih =>
    intro s h
    have hs := Sem.step_preserves s op h
    have hrun := ih (s.step op) hs.1
    rw [show s.run (op :: ops) = (s.step op).run ops from rfl]
    exact ⟨hrun.1, hrun.2.trans hs.2⟩

/-- Closedness is preserved by every semaphore operation. -/
theorem Sem.run_closed (ops : List SemOp) :
    ∀ s : Sem, s.closed = true → (s.run ops).closed = true := by
  induction ops with
  | nil => intro s h; exact h
  | cons op ops ih =>
    intro s h
    rw [show s.run (op :: ops) = (s.step op).run ops from rfl]
    apply ih
    cases op with
    | obtain a =>
      show (s.Obtain a).2.closed = true
      unfold Sem.Obtain
      rw [if_pos h]
      exact h
    | release =>
      show s.Release.2.closed = true
      unfold Sem.Release
      by_cases hc : 0 < s.count
      · rw [if_pos hc]; exact h
      · rw [if_neg hc]; exact h
    | close => rfl

/-- A retryable attempt makes `retryLoop` sleep once, record the sent
body, and recurse carrying the attempt's outcome in the loop state. -/
theorem retryLoop_step (c : SafeClient) (transport : Int → Except GoError Response)
    (rng : Int → Int) (n : Nat) (tries wait status : Int) (body : List Nat)
    (err : Option GoError) (reqBody : List Nat) (sleeps : List Int)
    (sent : List (List Nat)) (w : Int)
    (hw : c.toBackoff.Next wait (rng tries) = some w)
    (hretry : retryableOutcome c.TimeoutOnly (transport tries) = true) :
    retryLoop c transport rng (n + 1) tries wait status body err reqBody sleeps sent
      = retryLoop c transport rng n (tries + 1) w
          (RequestWithClose (transport tries)).status
          (RequestWithClose (transport tries)).body
          (RequestWithClose (transport tries)).err
          [] (sleeps ++ [w]) (sent ++ [reqBody]) := by
  unfold retryableOutcome at hretry
  rcases herr : (RequestWithClose (transport tries)).err with _ | e <;>
    simp only [herr] at hretry <;>
    simp [retryLoop, hw, herr, hretry]

/-- A non-retryable transport error makes `retryLoop` return at once:
that attempt's status, body and error, no extra sleep, the send recorded. -/
theorem retryLoop_return_err (c : SafeClient) (transport : Int → Except GoError Response)
    (rng : Int → Int) (n : Nat) (tries wait status : Int) (body : List Nat)
    (err : Option GoError) (reqBody : List Nat) (sleeps : List Int)
    (sent : List (List Nat)) (w : Int) (e : GoError)
    (hw : c.toBackoff.Next wait (rng tries) = some w)
    (herr : (RequestWithClose (transport tries)).err = some e)
    (hcond : (!c.TimeoutOnly || IsTimeoutErr e) = false) :
    retryLoop c transport rng (n + 1) tries wait status body err reqBody sleeps sent
      = some { tries := tries, status := (RequestWithClose (transport tries)).status,
               body := (RequestWithClose (transport tries)).body, err := some e,
               sleeps := sleeps, sentBodies := sent ++ [reqBody] } := by
  simp only [retryLoop, hw, herr, hcond, Bool.false_eq_true, if_false]

/-- A non-retryable status makes `retryLoop` return at once: that
attempt's status and body, a nil error, no extra sleep, the send
recorded. -/
theorem retryLoop_return_status (c : SafeClient) (transport : Int → Except GoError Response)
    (rng : Int → Int) (n : Nat) (tries wait status : Int) (body : List Nat)
    (err : Option GoError) (reqBody : List Nat) (sleeps : List Int)
    (sent : List (List Nat)) (w : Int)
    (hw : c.toBackoff.Next wait (rng tries) = some w)
    (herr : (RequestWithClose (transport tries)).err = none)
    (hsr : ShouldRetry (RequestWithClose (transport tries)).status = false) :
    retryLoop c transport rng (n + 1) tries wait status body err reqBody sleeps sent
      = some { tries := tries, status := (RequestWithClose (transport tries)).status,
               body := (RequestWithClose (transport tries)).body, err := none,
               sleeps := sleeps, sentBodies := sent ++ [reqBody] } := by
  simp only [retryLoop, hw, herr, hsr, Bool.false_eq_true, if_false]

/-- If every one of the next `n + 1` attempts is retryable, `retryLoop`
exhausts its budget and returns the LAST attempt's status/body/error,
with retry count `tries + n` and one sleep and one send per attempt. -/
theorem retryLoop_exhaust (c : SafeClient) (transport : Int → Except GoError Response)
    (rng : Int → Int) (hbase : 0 < c.toBackoff.BaseSleep) :
    ∀ (n : Nat) (tries wait status : Int) (body : List Nat) (err : Option GoError)
      (reqBody : List Nat) (sleeps : List Int) (sent : List (List Nat)),
      (∀ j : Int, tries ≤ j → j < tries + (n + 1) →
        retryableOutcome c.TimeoutOnly (transport j) = true) →
      ∃ res, retryLoop c transport rng (n + 1) tries wait status body err reqBody sleeps sent
          = some res ∧
        res.tries = tries + n ∧
        res.status = (RequestWithClose (transport (tries + n))).status ∧
        res.body = (RequestWithClose (transport (tries + n))).body ∧
        res.err = (RequestWithClose (transport (tries + n))).err ∧
        res.sleeps.length = sleeps.length + (n + 1) ∧
        res.sentBodies.length = sent.length + (n + 1) := by
  intro n
  induction n with
  | zero =>
    intro tries wait status body err reqBody sleeps sent hall
    obtain ⟨w, hw⟩ := Backoff.next_isSome c.toBackoff wait (rng tries) hbase
    have hretry := hall tries (le_refl _) (by omega)
    rw [retryLoop_step c transport rng 0 tries wait status body err reqBody sleeps sent w
      hw hretry]
    simp only [retryLoop]
    refine ⟨_, rfl, ?_, ?_, ?_, ?_, ?_, ?_⟩ <;> simp
  | succ m ih =>
    intro tries wait status body err reqBody sleeps sent hall
    obtain ⟨w, hw⟩ := Backoff.next_isSome c.toBackoff wait (rng tries) hbase
    have hretry := hall tries (le_refl _) (by omega)
    rw [retryLoop_step c transport rng (m + 1) tries wait status body err reqBody sleeps sent w
      hw hretry]
    obtain ⟨res, hres, h1, h2, h3, h4, h5, h6⟩ :=
      ih (tries + 1) w (RequestWithClose (transport tries)).status
        (RequestWithClose (transport tries)).body
        (RequestWithClose (transport tries)).err
        [] (sleeps ++ [w]) (sent ++ [reqBody])
        (fun j hj1 hj2 => hall j (by omega) (by push_cast at hj2 ⊢; omega))
    have hidx : tries + 1 + (m : Int) = tries + ((m : Int) + 1) := by ring
    refine ⟨res, hres, ?_, ?_, ?_, ?_, ?_, ?_⟩
    · rw [h1]; push_cast; ring
    · rw [h2, hidx]; push_cast; rfl
    · rw [h3, hidx]; push_cast; rfl
    · rw [h4, hidx]; push_cast; rfl
    · simp only [List.length_append, List.length_cons, List.length_nil] at h5
      omega
    · simp only [List.length_append, List.length_cons, List.length_nil] at h6
      omega

/-- `retryLoop` with a panic-free backoff always returns a result, whose
sleep and send traces extend the accumulators; with at least one
iteration of budget, at least one send happens. -/
theorem retryLoop_total (c : SafeClient) (transport : Int → Except GoError Response)
    (rng : Int → Int) (hbase : 0 < c.toBackoff.BaseSleep) :
    ∀ (fuel : Nat) (tries wait status : Int) (body : List Nat) (err : Option GoError)
      (reqBody : List Nat) (sleeps : List Int) (sent : List (List Nat)),
      ∃ res, retryLoop c transport rng fuel tries wait status body err reqBody sleeps sent
          = some res ∧
        sleeps.length ≤ res.sleeps.length ∧
        sent.length ≤ res.sentBodies.length ∧
        (0 < fuel → sent.length + 1 ≤ res.sentBodies.length) := by
  intro fuel
  induction fuel with
  | zero =>
    intro tries wait status body err reqBody sleeps sent
    exact ⟨_, rfl, le_refl _, le_refl _, fun h => absurd h (by omega)⟩
  | succ n ih =>
    intro tries wait status body err reqBody sleeps sent
    obtain ⟨w, hw⟩ := Backoff.next_isSome c.toBackoff wait (rng tries) hbase
    rcases herr : (RequestWithClose (transport tries)).err with _ | e
    · by_cases hsr : ShouldRetry (RequestWithClose (transport tries)).status = true
      · have hretry : retryableOutcome c.TimeoutOnly (transport tries) = true := by
          unfold retryableOutcome; rw [herr]; exact hsr
        rw [retryLoop_step c transport rng n tries wait status body err reqBody sleeps sent w
          hw hretry]
        obtain ⟨res, hres, hl1, hl2, _⟩ :=
          ih (tries + 1) w (RequestWithClose (transport tries)).status
            (RequestWithClose (transport tries)).body
            (RequestWithClose (transport tries)).err
            [] (sleeps ++ [w]) (sent ++ [reqBody])
        refine ⟨res, hres, ?_, ?_, fun _ => ?_⟩ <;>
          simp only [List.length_append, List.length_cons, List.length_nil] at hl1 hl2 <;>
          omega
      · have hsr2 : ShouldRetry (RequestWithClose (transport tries)).status = false := by
          simpa using hsr
        rw [retryLoop_return_status c transport rng n tries wait status body err reqBody
          sleeps sent w hw herr hsr2]
        refine ⟨_, rfl, le_refl _, ?_, fun _ => ?_⟩ <;>
          simp [List.length_append]
    · by_cases hcond : (!c.TimeoutOnly || IsTimeoutErr e) = true
      · have hretry : retryableOutcome c.TimeoutOnly (transport tries) = true := by
          unfold retryableOutcome; rw [herr]; exact hcond
        rw [retryLoop_step c transport rng n tries wait status body err reqBody sleeps sent w
          hw hretry]
        obtain ⟨res, hres, hl1, hl2, _⟩ :=
          ih (tries + 1) w (RequestWithClose (transport tries)).status
            (RequestWithClose (transport tries)).body
            (RequestWithClose (transport tries)).err
            [] (sleeps ++ [w]) (sent ++ [reqBody])
        refine ⟨res, hres, ?_, ?_, fun _ => ?_⟩ <;>
          simp only [List.length_append, List.length_cons, List.length_nil] at hl1 hl2 <;>
          omega
      · have hcond2 : (!c.TimeoutOnly || IsTimeoutErr e) = false := by
          simpa using hcond
        rw [retryLoop_return_err c transport rng n tries wait status body err reqBody
          sleeps sent w e hw herr hcond2]
        refine ⟨_, rfl, le_refl _, ?_, fun _ => ?_⟩ <;>
          simp [List.length_append]

/-- After `m` retryable attempts with budget strictly larger than `m`,
`retryLoop` has slept at least `m` times and sent at least `m + 1`
requests. -/
theorem retryLoop_progress (c : SafeClient) (transport : Int → Except GoError Response)
    (rng : Int → Int) (hbase : 0 < c.toBackoff.BaseSleep) :
    ∀ (m fuel : Nat) (tries wait status : Int) (body : List Nat) (err : Option GoError)
      (reqBody : List Nat) (sleeps : List Int) (sent : List (List Nat)),
      m < fuel →
      (∀ j : Int, tries ≤ j → j < tries + m →
        retryableOutcome c.TimeoutOnly (transport j) = true) →
      ∃ res, retryLoop c transport rng fuel tries wait status body err reqBody sleeps sent
          = some res ∧
        sleeps.length + m ≤ res.sleeps.length ∧
        sent.length + (m + 1) ≤ res.sentBodies.length := by
  intro m
  induction m with
  | zero =>
    intro fuel tries wait status body err reqBody sleeps sent hm _
    obtain ⟨res, hres, hl1, hl2, hl3⟩ :=
      retryLoop_total c transport rng hbase fuel tries wait status body err reqBody sleeps sent
    exact ⟨res, hres, by omega, by have := hl3 hm; omega⟩
  | succ k ih =>
    intro fuel tries wait status body err reqBody sleeps sent hm hall
    obtain ⟨n, rfl⟩ : ∃ n, fuel = n + 1 := ⟨fuel - 1, by omega⟩
    obtain ⟨w, hw⟩ := Backoff.next_isSome c.toBackoff wait (rng tries) hbase
    have hretry := hall tries (le_refl _) (by push_cast; omega)
    rw [retryLoop_step c transport rng n tries wait status body err reqBody sleeps sent w
      hw hretry]
    obtain ⟨res, hres, hs1, hs2⟩ :=
      ih n (tries + 1) w (RequestWithClose (transport tries)).status
        (RequestWithClose (transport tries)).body
        (RequestWithClose (transport tries)).err
        [] (sleeps ++ [w]) (sent ++ [reqBody])
        (by omega) (fun j hj1 hj2 => hall j (by omega) (by push_cast at hj2 ⊢; omega))
    refine ⟨res, hres, ?_, ?_⟩ <;>
      simp only [List.length_append, List.length_cons, List.length_nil] at hs1 hs2 <;>
      omega

/-- The send trace of `retryLoop`: whatever the attempts do, the bodies
the transport receives are the initial stream once, then empty bytes on
every later attempt — the single request object is never rebuilt. -/
theorem retryLoop_sent_shape (c : SafeClient) (transport : Int → Except GoError Response)
    (rng : Int → Int) (hbase : 0 < c.toBackoff.BaseSleep) :
    ∀ (fuel : Nat) (tries wait status : Int) (body : List Nat) (err : Option GoError)
      (reqBody : List Nat) (sleeps : List Int) (sent : List (List Nat)),
      ∃ res, retryLoop c transport rng fuel tries wait status body err reqBody sleeps sent
          = some res ∧
        (fuel = 0 → res.sentBodies = sent) ∧
        (0 < fuel → ∃ m : Nat, res.sentBodies = sent ++ reqBody :: List.replicate m []) := by
  intro fuel
  induction fuel with
  | zero =>
    intro tries wait status body err reqBody sleeps sent
    exact ⟨_, rfl, fun _ => rfl, fun h => absurd h (by omega)⟩
  | succ n ih =>
    intro tries wait status body err reqBody sleeps sent
    obtain ⟨w, hw⟩ := Backoff.next_isSome c.toBackoff wait (rng tries) hbase
    rcases herr : (RequestWithClose (transport tries)).err with _ | e
    · by_cases hsr : ShouldRetry (RequestWithClose (transport tries)).status = true
      · have hretry : retryableOutcome c.TimeoutOnly (transport tries) = true := by
          unfold retryableOutcome; rw [herr]; exact hsr
        rw [retryLoop_step c transport rng n tries wait status body err reqBody sleeps sent w
          hw hretry]
        obtain ⟨res, hres, hz, hp⟩ :=
          ih (tries + 1) w (RequestWithClose (transport tries)).status
            (RequestWithClose (transport tries)).body
            (RequestWithClose (transport tries)).err
            [] (sleeps ++ [w]) (sent ++ [reqBody])
        refine ⟨res, hres, fun h => absurd h (by omega), fun _ => ?_⟩
        rcases Nat.eq_zero_or_pos n with hn | hn
        · exact ⟨0, by rw [hz hn]; simp⟩
        · obtain ⟨m, hm⟩ := hp hn
          exact ⟨m + 1, by rw [hm]; simp [List.replicate_succ]⟩
      · have hsr2 : ShouldRetry (RequestWithClose (transport tries)).status = false := by
          simpa using hsr
        rw [retryLoop_return_status c transport rng n tries wait status body err reqBody
          sleeps sent w hw herr hsr2]
        exact ⟨_, rfl, fun h => absurd h (by omega), fun _ => ⟨0, by simp⟩⟩
    · by_cases hcond : (!c.TimeoutOnly || IsTimeoutErr e) = true
      · have hretry : retryableOutcome c.TimeoutOnly (transport tries) = true := by
          unfold retryableOutcome; rw [herr]; exact hcond
        rw [retryLoop_step c transport rng n tries wait status body err reqBody sleeps sent w
          hw hretry]
        obtain ⟨res, hres, hz, hp⟩ :=
          ih (tries + 1) w (RequestWithClose (transport tries)).status
            (RequestWithClose (transport tries)).body
            (RequestWithClose (transport tries)).err
            [] (sleeps ++ [w]) (sent ++ [reqBody])
        refine ⟨res, hres, fun h => absurd h (by omega), fun _ => ?_⟩
        rcases Nat.eq_zero_or_pos n with hn | hn
        · exact ⟨0, by rw [hz hn]; simp⟩
        · obtain ⟨m, hm⟩ := hp hn
          exact ⟨m + 1, by rw [hm]; simp [List.replicate_succ]⟩
      · have hcond2 : (!c.TimeoutOnly || IsTimeoutErr e) = false := by
          simpa using hcond
        rw [retryLoop_return_err c transport rng n tries wait status body err reqBody
          sleeps sent w e hw herr hcond2]
        exact ⟨_, rfl, fun h => absurd h (by omega), fun _ => ⟨0, by simp⟩⟩

/-- A retryable attempt makes `doRequestLoop` (with request construction
succeeding) sleep once, record the freshly-built body, and recurse. -/
theorem doRequestLoop_step (c : SafeClient) (content : List Nat)
    (transport : Int → Except GoError Response)
    (rng : Int → Int) (n : Nat) (tries wait status : Int) (body : List Nat)
    (err : Option GoError) (sleeps : List Int) (sent : List (List Nat)) (w : Int)
    (hw : c.toBackoff.Next wait (rng tries) = some w)
    (hretry : retryableOutcome c.TimeoutOnly (transport tries) = true) :
    doRequestLoop c content none transport rng (n + 1) tries wait status body err sleeps sent
      = doRequestLoop c content none transport rng n (tries + 1) w
          (RequestWithClose (transport tries)).status
          (RequestWithClose (transport tries)).body
          (RequestWithClose (transport tries)).err
          (sleeps ++ [w]) (sent ++ [content]) := by
  unfold retryableOutcome at hretry
  rcases herr : (RequestWithClose (transport tries)).err with _ | e <;>
    simp only [herr] at hretry <;>
    simp [doRequestLoop, hw, herr, hretry]

/-- A non-retryable transport error makes `doRequestLoop` return at once. -/
theorem doRequestLoop_return_err (c : SafeClient) (content : List Nat)
    (transport : Int → Except GoError Response)
    (rng : Int → Int) (n : Nat) (tries wait status : Int) (body : List Nat)
    (err : Option GoError) (sleeps : List Int) (sent : List (List Nat)) (w : Int)
    (e : GoError)
    (hw : c.toBackoff.Next wait (rng tries) = some w)
    (herr : (RequestWithClose (transport tries)).err = some e)
    (hcond : (!c.TimeoutOnly || IsTimeoutErr e) = false) :
    doRequestLoop c content none transport rng (n + 1) tries wait status body err sleeps sent
      = some { tries := tries, status := (RequestWithClose (transport tries)).status,
               body := (RequestWithClose (transport tries)).body, err := some e,
               sleeps := sleeps, sentBodies := sent ++ [content] } := by
  simp only [doRequestLoop, hw, herr, hcond, Bool.false_eq_true, if_false]

/-- A non-retryable status makes `doRequestLoop` return at once. -/
theorem doRequestLoop_return_status (c : SafeClient) (content : List Nat)
    (transport : Int → Except GoError Response)
    (rng : Int → Int) (n : Nat) (tries wait status : Int) (body : List Nat)
    (err : Option GoError) (sleeps : List Int) (sent : List (List Nat)) (w : Int)
    (hw : c.toBackoff.Next wait (rng tries) = some w)
    (herr : (RequestWithClose (transport tries)).err = none)
    (hsr : ShouldRetry (RequestWithClose (transport tries)).status = false) :
    doRequestLoop c content none transport rng (n + 1) tries wait status body err sleeps sent
      = some { tries := tries, status := (RequestWithClose (transport tries)).status,
               body := (RequestWithClose (transport tries)).body, err := none,
               sleeps := sleeps, sentBodies := sent ++ [content] } := by
  simp only [doRequestLoop, hw, herr, hsr, Bool.false_eq_true, if_false]

/-- Exhaustion for `doRequestLoop`: all of the next `n + 1` attempts
retryable means the loop returns the last attempt's outcome with retry
count `tries + n`, one sleep and one send per attempt. -/
theorem doRequestLoop_exhaust (c : SafeClient) (content : List Nat)
    (transport : Int → Except GoError Response)
    (rng : Int → Int) (hbase : 0 < c.toBackoff.BaseSleep) :
    ∀ (n : Nat) (tries wait status : Int) (body : List Nat) (err : Option GoError)
      (sleeps : List Int) (sent : List (List Nat)),
      (∀ j : Int, tries ≤ j → j < tries + (n + 1) →
        retryableOutcome c.TimeoutOnly (transport j) = true) →
      ∃ res, doRequestLoop c content none transport rng (n + 1) tries wait status body err
          sleeps sent = some res ∧
        res.tries = tries + n ∧
        res.status = (RequestWithClose (transport (tries + n))).status ∧
        res.body = (RequestWithClose (transport (tries + n))).body ∧
        res.err = (RequestWithClose (transport (tries + n))).err ∧
        res.sleeps.length = sleeps.length + (n + 1) ∧
        res.sentBodies.length = sent.length + (n + 1) := by
  intro n
  induction n with
  | zero =>
    intro tries wait status body err sleeps sent hall
    obtain ⟨w, hw⟩ := Backoff.next_isSome c.toBackoff wait (rng tries) hbase
    have hretry := hall tries (le_refl _) (by omega)
    rw [doRequestLoop_step c content transport rng 0 tries wait status body err sleeps sent w
      hw hretry]
    simp only [doRequestLoop]
    refine ⟨_, rfl, ?_, ?_, ?_, ?_, ?_, ?_⟩ <;> simp
  | succ m ih =>
    intro tries wait status body err sleeps sent hall
    obtain ⟨w, hw⟩ := Backoff.next_isSome c.toBackoff wait (rng tries) hbase
    have hretry := hall tries (le_refl _) (by omega)
    rw [doRequestLoop_step c content transport rng (m + 1) tries wait status body err sleeps
      sent w hw hretry]
    obtain ⟨res, hres, h1, h2, h3, h4, h5, h6⟩ :=
      ih (tries + 1) w (RequestWithClose (transport tries)).status
        (RequestWithClose (transport tries)).body
        (RequestWithClose (transport tries)).err
        (sleeps ++ [w]) (sent ++ [content])
        (fun j hj1 hj2 => hall j (by omega) (by push_cast at hj2 ⊢; omega))
    have hidx : tries + 1 + (m : Int) = tries + ((m : Int) + 1) := by ring
    refine ⟨res, hres, ?_, ?_, ?_, ?_, ?_, ?_⟩
    · rw [h1]; push_cast; ring
    · rw [h2, hidx]; push_cast; rfl
    · rw [h3, hidx]; push_cast; rfl
    · rw [h4, hidx]; push_cast; rfl
    · simp only [List.length_append, List.length_cons, List.length_nil] at h5
      omega
    · simp only [List.length_append, List.length_cons, List.length_nil] at h6
      omega

/-- Totality and trace monotonicity for `doRequestLoop` with request
construction succeeding and a panic-free backoff. -/
theorem doRequestLoop_total (c : SafeClient) (content : List Nat)
    (transport : Int → Except GoError Response)
    (rng : Int → Int) (hbase : 0 < c.toBackoff.BaseSleep) :
    ∀ (fuel : Nat) (tries wait status : Int) (body : List Nat) (err : Option GoError)
      (sleeps : List Int) (sent : List (List Nat)),
      ∃ res, doRequestLoop c content none transport rng fuel tries wait status body err
          sleeps sent = some res ∧
        sleeps.length ≤ res.sleeps.length ∧
        sent.length ≤ res.sentBodies.length ∧
        (0 < fuel → sent.length + 1 ≤ res.sentBodies.length) := by
  intro fuel
  induction fuel with
  | zero =>
    intro tries wait status body err sleeps sent
    exact ⟨_, rfl, le_refl _, le_refl _, fun h => absurd h (by omega)⟩
  | succ n ih =>
    intro tries wait status body err sleeps sent
    obtain ⟨w, hw⟩ := Backoff.next_isSome c.toBackoff wait (rng tries) hbase
    rcases herr : (RequestWithClose (transport tries)).err with _ | e
    · by_cases hsr : ShouldRetry (RequestWithClose (transport tries)).status = true
      · have hretry : retryableOutcome c.TimeoutOnly (transport tries) = true := by
          unfold retryableOutcome; rw [herr]; exact hsr
        rw [doRequestLoop_step c content transport rng n tries wait status body err sleeps
          sent w hw hretry]
        obtain ⟨res, hres, hl1, hl2, _⟩ :=
          ih (tries + 1) w (RequestWithClose (transport tries)).status
            (RequestWithClose (transport tries)).body
            (RequestWithClose (transport tries)).err
            (sleeps ++ [w]) (sent ++ [content])
        refine ⟨res, hres, ?_, ?_, fun _ => ?_⟩ <;>
          simp only [List.length_append, List.length_cons, List.length_nil] at hl1 hl2 <;>
          omega
      · have hsr2 : ShouldRetry (RequestWithClose (transport tries)).status = false := by
          simpa using hsr
        rw [doRequestLoop_return_status c content transport rng n tries wait status body err
          sleeps sent w hw herr hsr2]
        refine ⟨_, rfl, le_refl _, ?_, fun _ => ?_⟩ <;>
          simp [List.length_append]
    · by_cases hcond : (!c.TimeoutOnly || IsTimeoutErr e) = true
      · have hretry : retryableOutcome c.TimeoutOnly (transport tries) = true := by
          unfold retryableOutcome; rw [herr]; exact hcond
        rw [doRequestLoop_step c content transport rng n tries wait status body err sleeps
          sent w hw hretry]
        obtain ⟨res, hres, hl1, hl2, _⟩ :=
          ih (tries + 1) w (RequestWithClose (transport tries)).status
            (RequestWithClose (transport tries)).body
            (RequestWithClose (transport tries)).err
            (sleeps ++ [w]) (sent ++ [content])
        refine ⟨res, hres, ?_, ?_, fun _ => ?_⟩ <;>
          simp only [List.length_append, List.length_cons, List.length_nil] at hl1 hl2 <;>
          omega
      · have hcond2 : (!c.TimeoutOnly || IsTimeoutErr e) = false := by
          simpa using hcond
        rw [doRequestLoop_return_err c content transport rng n tries wait status body err
          sleeps sent w e hw herr hcond2]
        refine ⟨_, rfl, le_refl _, ?_, fun _ => ?_⟩ <;>
          simp [List.length_append]

/-- Progress for `doRequestLoop`: `m` retryable attempts with budget
strictly larger than `m` force at least `m` sleeps and `m + 1` sends. -/
theorem doRequestLoop_progress (c : SafeClient) (content : List Nat)
    (transport : Int → Except GoError Response)
    (rng : Int → Int) (hbase : 0 < c.toBackoff.BaseSleep) :
    ∀ (m fuel : Nat) (tries wait status : Int) (body : List Nat) (err : Option GoError)
      (sleeps : List Int) (sent : List (List Nat)),
      m < fuel →
      (∀ j : Int, tries ≤ j → j < tries + m →
        retryableOutcome c.TimeoutOnly (transport j) = true) →
      ∃ res, doRequestLoop c content none transport rng fuel tries wait status body err
          sleeps sent = some res ∧
        sleeps.length + m ≤ res.sleeps.length ∧
        sent.length + (m + 1) ≤ res.sentBodies.length := by
  intro m
  induction m with
  | zero =>
    intro fuel tries wait status body err sleeps sent hm _
    obtain ⟨res, hres, hl1, hl2, hl3⟩ :=
      doRequestLoop_total c content transport rng hbase fuel tries wait status body err
        sleeps sent
    exact ⟨res, hres, by omega, by have := hl3 hm; omega⟩
  | succ k ih =>
    intro fuel tries wait status body err sleeps sent hm hall
    obtain ⟨n, rfl⟩ : ∃ n, fuel = n + 1 := ⟨fuel - 1, by omega⟩
    obtain ⟨w, hw⟩ := Backoff.next_isSome c.toBackoff wait (rng tries) hbase
    have hretry := hall tries (le_refl _) (by push_cast; omega)
    rw [doRequestLoop_step c content transport rng n tries wait status body err sleeps sent w
      hw hretry]
    obtain ⟨res, hres, hs1, hs2⟩ :=
      ih n (tries + 1) w (RequestWithClose (transport tries)).status
        (RequestWithClose (transport tries)).body
        (RequestWithClose (transport tries)).err
        (sleeps ++ [w]) (sent ++ [content])
        (by omega) (fun j hj1 hj2 => hall j (by omega) (by push_cast at hj2 ⊢; omega))
    refine ⟨res, hres, ?_, ?_⟩ <;>
      simp only [List.length_append, List.length_cons, List.length_nil] at hs1 hs2 <;>
      omega

/-- The send trace of `doRequestLoop`: a fresh request is built every
attempt, so the transport receives the full `content` every time. -/
theorem doRequestLoop_sent_shape (c : SafeClient) (content : List Nat)
    (transport : Int → Except GoError Response)
    (rng : Int → Int) (hbase : 0 < c.toBackoff.BaseSleep) :
    ∀ (fuel : Nat) (tries wait status : Int) (body : List Nat) (err : Option GoError)
      (sleeps : List Int) (sent : List (List Nat)),
      ∃ res, doRequestLoop c content none transport rng fuel tries wait status body err
          sleeps sent = some res ∧
        (fuel = 0 → res.sentBodies = sent) ∧
        (0 < fuel → ∃ m : Nat, res.sentBodies = sent ++ List.replicate (m + 1) content) := by
  intro fuel
  induction fuel with
  | zero =>
    intro tries wait status body err sleeps sent
    exact ⟨_, rfl, fun _ => rfl, fun h => absurd h (by omega)⟩
  | succ n ih =>
    intro tries wait status body err sleeps sent
    obtain ⟨w, hw⟩ := Backoff.next_isSome c.toBackoff wait (rng tries) hbase
    rcases herr : (RequestWithClose (transport tries)).err with _ | e
    · by_cases hsr : ShouldRetry (RequestWithClose (transport tries)).status = true
      · have hretry : retryableOutcome c.TimeoutOnly (transport tries) = true := by
          unfold retryableOutcome; rw [herr]; exact hsr
        rw [doRequestLoop_step c content transport rng n tries wait status body err sleeps
          sent w hw hretry]
        obtain ⟨res, hres, hz, hp⟩ :=
          ih (tries + 1) w (RequestWithClose (transport tries)).status
            (RequestWithClose (transport tries)).body
            (RequestWithClose (transport tries)).err
            (sleeps ++ [w]) (sent ++ [content])
        refine ⟨res, hres, fun h => absurd h (by omega), fun _ => ?_⟩
        rcases Nat.eq_zero_or_pos n with hn | hn
        · exact ⟨0, by rw [hz hn]; simp⟩
        · obtain ⟨m, hm⟩ := hp hn
          exact ⟨m + 1, by rw [hm]; simp [List.replicate_succ]⟩
      · have hsr2 : ShouldRetry (RequestWithClose (transport tries)).status = false := by
          simpa using hsr
        rw [doRequestLoop_return_status c content transport rng n tries wait status body err
          sleeps sent w hw herr hsr2]
        exact ⟨_, rfl, fun h => absurd h (by omega), fun _ => ⟨0, by simp⟩⟩
    · by_cases hcond : (!c.TimeoutOnly || IsTimeoutErr e) = true
      · have hretry : retryableOutcome c.TimeoutOnly (transport tries) = true := by
          unfold retryableOutcome; rw [herr]; exact hcond
        rw [doRequestLoop_step c content transport rng n tries wait status body err sleeps
          sent w hw hretry]
        obtain ⟨res, hres, hz, hp⟩ :=
          ih (tries + 1) w (RequestWithClose (transport tries)).status
            (RequestWithClose (transport tries)).body
            (RequestWithClose (transport tries)).err
            (sleeps ++ [w]) (sent ++ [content])
        refine ⟨res, hres, fun h => absurd h (by omega), fun _ => ?_⟩
        rcases Nat.eq_zero_or_pos n with hn | hn
        · exact ⟨0, by rw [hz hn]; simp⟩
        · obtain ⟨m, hm⟩ := hp hn
          exact ⟨m + 1, by rw [hm]; simp [List.replicate_succ]⟩
      · have hcond2 : (!c.TimeoutOnly || IsTimeoutErr e) = false := by
          simpa using hcond
        rw [doRequestLoop_return_err c content transport rng n tries wait status body err
          sleeps sent w e hw herr hcond2]
        exact ⟨_, rfl, fun h => absurd h (by omega), fun _ => ⟨0, by simp⟩⟩

/-- Fatal error at attempt `k` in `retryLoop`: after `k` retryable
attempts, an attempt whose error is non-retryable returns immediately
with that attempt's outcome, retry count `tries + k`, exactly `k` sleeps
and `k + 1` sends. -/
theorem retryLoop_fatal (c : SafeClient) (transport : Int → Except GoError Response)
    (rng : Int → Int) (hbase : 0 < c.toBackoff.BaseSleep) (e : GoError)
    (hcond : (!c.TimeoutOnly || IsTimeoutErr e) = false) :
    ∀ (k fuel : Nat) (tries wait status : Int) (body : List Nat) (err : Option GoError)
      (reqBody : List Nat) (sleeps : List Int) (sent : List (List Nat)),
      k < fuel →
      (∀ j : Int, tries ≤ j → j < tries + k →
        retryableOutcome c.TimeoutOnly (transport j) = true) →
      (RequestWithClose (transport (tries + k))).err = some e →
      ∃ res, retryLoop c transport rng fuel tries wait status body err reqBody sleeps sent
          = some res ∧
        res.tries = tries + k ∧
        res.status = (RequestWithClose (transport (tries + k))).status ∧
        res.body = (RequestWithClose (transport (tries + k))).body ∧
        res.err = some e ∧
        res.sleeps.length = sleeps.length + k ∧
        res.sentBodies.length = sent.length + (k + 1) := by
  intro k
  induction k with
  | zero =>
    intro fuel tries wait status body err reqBody sleeps sent hk _ herr
    obtain ⟨n, rfl⟩ : ∃ n, fuel = n + 1 := ⟨fuel - 1, by omega⟩
    obtain ⟨w, hw⟩ := Backoff.next_isSome c.toBackoff wait (rng tries) hbase
    have herr0 : (RequestWithClose (transport tries)).err = some e := by
      simpa using herr
    rw [retryLoop_return_err c transport rng n tries wait status body err reqBody sleeps
      sent w e hw herr0 hcond]
    refine ⟨_, rfl, ?_, ?_, ?_, rfl, ?_, ?_⟩ <;> simp
  | succ m ih =>
    intro fuel tries wait status body err reqBody sleeps sent hk hall herr
    obtain ⟨n, rfl⟩ : ∃ n, fuel = n + 1 := ⟨fuel - 1, by omega⟩
    obtain ⟨w, hw⟩ := Backoff.next_isSome c.toBackoff wait (rng tries) hbase
    have hretry := hall tries (le_refl _) (by push_cast; omega)
    rw [retryLoop_step c transport rng n tries wait status body err reqBody sleeps sent w
      hw hretry]
    have hidx : tries + 1 + (m : Int) = tries + ((m : Int) + 1) := by ring
    have herr1 : (RequestWithClose (transport (tries + 1 + (m : Int)))).err = some e := by
      rw [hidx]; push_cast at herr ⊢; exact herr
    obtain ⟨res, hres, h1, h2, h3, h4, h5, h6⟩ :=
      ih n (tries + 1) w (RequestWithClose (transport tries)).status
        (RequestWithClose (transport tries)).body
        (RequestWithClose (transport tries)).err
        [] (sleeps ++ [w]) (sent ++ [reqBody]) (by omega)
        (fun j hj1 hj2 => hall j (by omega) (by push_cast at hj2 ⊢; omega)) herr1
    refine ⟨res, hres, ?_, ?_, ?_, h4, ?_, ?_⟩
    · rw [h1]; push_cast; ring
    · rw [h2, hidx]; push_cast; rfl
    · rw [h3, hidx]; push_cast; rfl
    · simp only [List.length_append, List.length_cons, List.length_nil] at h5
      omega
    · simp only [List.length_append, List.length_cons, List.length_nil] at h6
      omega

/-- Fatal error at attempt `k` in `doRequestLoop`. -/
theorem doRequestLoop_fatal (c : SafeClient) (content : List Nat)
    (transport : Int → Except GoError Response)
    (rng : Int → Int) (hbase : 0 < c.toBackoff.BaseSleep) (e : GoError)
    (hcond : (!c.TimeoutOnly || IsTimeoutErr e) = false) :
    ∀ (k fuel : Nat) (tries wait status : Int) (body : List Nat) (err : Option GoError)
      (sleeps : List Int) (sent : List (List Nat)),
      k < fuel →
      (∀ j : Int, tries ≤ j → j < tries + k →
        retryableOutcome c.TimeoutOnly (transport j) = true) →
      (RequestWithClose (transport (tries + k))).err = some e →
      ∃ res, doRequestLoop c content none transport rng fuel tries wait status body err
          sleeps sent = some res ∧
        res.tries = tries + k ∧
        res.status = (RequestWithClose (transport (tries + k))).status ∧
        res.body = (RequestWithClose (transport (tries + k))).body ∧
        res.err = some e ∧
        res.sleeps.length = sleeps.length + k ∧
        res.sentBodies.length = sent.length + (k + 1) := by
  intro k
  induction k with
  | zero =>
    intro fuel tries wait status body err sleeps sent hk _ herr
    obtain ⟨n, rfl⟩ : ∃ n, fuel = n + 1 := ⟨fuel - 1, by omega⟩
    obtain ⟨w, hw⟩ := Backoff.next_isSome c.toBackoff wait (rng tries) hbase
    have herr0 : (RequestWithClose (transport tries)).err = some e := by
      simpa using herr
    rw [doRequestLoop_return_err c content transport rng n tries wait status body err
      sleeps sent w e hw herr0 hcond]
    refine ⟨_, rfl, ?_, ?_, ?_, rfl, ?_, ?_⟩ <;> simp
  | succ m ih =>
    intro fuel tries wait status body err sleeps sent hk hall herr
    obtain ⟨n, rfl⟩ : ∃ n, fuel = n + 1 := ⟨fuel - 1, by omega⟩
    obtain ⟨w, hw⟩ := Backoff.next_isSome c.toBackoff wait (rng tries) hbase
    have hretry := hall tries (le_refl _) (by push_cast; omega)
    rw [doRequestLoop_step c content transport rng n tries wait status body err sleeps sent w
      hw hretry]
    have hidx : tries + 1 + (m : Int) = tries + ((m : Int) + 1) := by ring
    have herr1 : (RequestWithClose (transport (tries + 1 + (m : Int)))).err = some e := by
      rw [hidx]; push_cast at herr ⊢; exact herr
    obtain ⟨res, hres, h1, h2, h3, h4, h5, h6⟩ :=
      ih n (tries + 1) w (RequestWithClose (transport tries)).status
        (RequestWithClose (transport tries)).body
        (RequestWithClose (transport tries)).err
        (sleeps ++ [w]) (sent ++ [content]) (by omega)
        (fun j hj1 hj2 => hall j (by omega) (by push_cast at hj2 ⊢; omega)) herr1
    refine ⟨res, hres, ?_, ?_, ?_, h4, ?_, ?_⟩
    · rw [h1]; push_cast; ring
    · rw [h2, hidx]; push_cast; rfl
    · rw [h3, hidx]; push_cast; rfl
    · simp only [List.length_append, List.length_cons, List.length_nil] at h5
      omega
    · simp only [List.length_append, List.length_cons, List.length_nil] at h6
      omega

/-! ## C9: the retry-status predicate -/

/-- C9: `ShouldRetry status` is true iff `status = 408` or
`500 ≤ status ≤ 599`; in particular 501, 505 and 511 are retryable while
200, 400 and 403 are not. -/
theorem C9_shouldRetry_characterization :
    (∀ s : Int, ShouldRetry s = true ↔ (s = 408 ∨ (500 ≤ s ∧ s ≤ 599))) ∧
    ShouldRetry 501 = true ∧ ShouldRetry 505 = true ∧ ShouldRetry 511 = true ∧
    ShouldRetry 200 = false ∧ ShouldRetry 400 = false ∧ ShouldRetry 403 = false := by
  refine ⟨fun s => ?_, by decide, by decide, by decide, by decide, by decide, by decide⟩
  unfold ShouldRetry
  simp only [Bool.or_eq_true, Bool.and_eq_true, beq_iff_eq, decide_eq_true_eq, ge_iff_le]

/-! ## C5: the response body is never closed -/

/-- C5: the claim says `RequestWithClose` releases the response body on
every exit path; in the code the `resp != nil` guard runs BEFORE
`c.Do` assigns `resp`, so the deferred `resp.Body.Close()` is never
registered and the body is closed on NO path: for every transport
outcome, `bodyClosed` is false. -/
theorem C5_body_never_closed (d : Except GoError Response) :
    (RequestWithClose d).bodyClosed = false := by
  cases d <;> rfl

/-! ## C1: Backoff.Next stays within `[BaseSleep, MaxSleep]` -/

/-- C1: for a configuration with `0 < BaseSleep ≤ MaxSleep` and any
non-negative `previous`, with the random draw `r` in the range
`rand.Intn` actually produces, `Backoff.Next` succeeds and its value lies
in the closed interval `[BaseSleep, MaxSleep]`. -/
theorem C1_next_in_range (b : Backoff) (previous r : Int)
    (hbase : 0 < b.BaseSleep) (hmax : b.BaseSleep ≤ b.MaxSleep)
    (hprev : 0 ≤ previous) (hr : 0 ≤ r)
    (hr2 : r < (if previous ≤ b.BaseSleep then b.BaseSleep else previous) * 3 - b.BaseSleep) :
    ∃ w, b.Next previous r = some w ∧ b.BaseSleep ≤ w ∧ w ≤ b.MaxSleep := by
  unfold Backoff.Next
  by_cases hc : previous ≤ b.BaseSleep
  · rw [if_pos hc] at hr2
    rw [if_pos hc, if_neg (by omega)]
    by_cases hm : r + b.BaseSleep > b.MaxSleep
    · exact ⟨b.MaxSleep, by rw [if_pos hm], hmax, le_refl _⟩
    · exact ⟨r + b.BaseSleep, by rw [if_neg hm], by omega, by omega⟩
  · rw [if_neg hc] at hr2
    rw [if_neg hc, if_neg (by omega)]
    by_cases hm : r + b.BaseSleep > b.MaxSleep
    · exact ⟨b.MaxSleep, by rw [if_pos hm], hmax, le_refl _⟩
    · exact ⟨r + b.BaseSleep, by rw [if_neg hm], by omega, by omega⟩

/-- C1 witness: the bound at the concrete configuration `base 1, max 5`,
`previous = 0`, draw `r = 0`. -/
theorem C1_next_in_range_witness :
    ∃ w, (Backoff.mk 1 5).Next 0 0 = some w ∧
      (Backoff.mk 1 5).BaseSleep ≤ w ∧ w ≤ (Backoff.mk 1 5).MaxSleep :=
  C1_next_in_range (Backoff.mk 1 5) 0 0 (by decide) (by decide) (by decide)
    (by decide) (by decide)

/-! ## C6: no construction-time rejection of `baseSleep ≤ 0` -/

/-- C6 counterexample: nothing rejects a configuration with
`baseSleep ≤ 0` at construction; the executor constructed with
`Backoff{0, 10}` reaches sampling and `rand.Intn` panics (`none`) on the
very first attempt of `RequestWithRetry`. -/
theorem C6_counterexample :
    RequestWithRetry { TimeoutOnly := true, BaseSleep := 0, MaxSleep := 10 } []
      (fun _ => Except.ok { StatusCode := 200, bodyBytes := [], readErr := none })
      (fun _ => 0) 1 = none := by
  rfl

/-- C6 amended: the code performs no construction-time validation, so a
client with `baseSleep ≤ 0` can be constructed and panics at sampling
time; what holds instead is that the one provided constructor,
`StdClient`, hardcodes a valid configuration (`0 < 100 ≤ 5000`), and for
every configuration with `0 < BaseSleep` the sampling range is non-empty,
so `Next` never panics. -/
theorem C6_amended (b : Backoff) (previous r : Int) (hbase : 0 < b.BaseSleep) :
    (0 < StdClient.toBackoff.BaseSleep ∧
      StdClient.toBackoff.BaseSleep ≤ StdClient.toBackoff.MaxSleep) ∧
    ∃ w, b.Next previous r = some w := by
  exact ⟨by decide, Backoff.next_isSome b previous r hbase⟩

/-- C6 amended witness: at the concrete configuration `base 2, max 9`,
`previous = 5`, draw `r = 3`. -/
theorem C6_amended_witness :
    (0 < StdClient.toBackoff.BaseSleep ∧
      StdClient.toBackoff.BaseSleep ≤ StdClient.toBackoff.MaxSleep) ∧
    ∃ w, (Backoff.mk 2 9).Next 5 3 = some w :=
  C6_amended (Backoff.mk 2 9) 5 3 (by decide)

/-! ## C10: non-positive `maxTries` -/

/-- C10: with `maxTries ≤ 0` the loop body of either executor never runs:
no send, no sleep, and the returned values are retry count `-1`, status
`0`, nil body, nil error. -/
theorem C10_nonpositive_maxTries (c : SafeClient) (reqBody content : List Nat)
    (newReqErr : Option GoError) (transport : Int → Except GoError Response)
    (rng : Int → Int) (maxTries : Int) (h : maxTries ≤ 0) :
    RequestWithRetry c reqBody transport rng maxTries
      = some { tries := -1, status := 0, body := [], err := none,
               sleeps := [], sentBodies := [] } ∧
    DoRequest c content newReqErr transport rng maxTries
      = some { tries := -1, status := 0, body := [], err := none,
               sleeps := [], sentBodies := [] } := by
  have h0 : maxTries.toNat = 0 := Int.toNat_of_nonpos h
  constructor
  · unfold RequestWithRetry
    rw [h0]
    rfl
  · unfold DoRequest
    rw [h0]
    rfl

/-- C10 witness: both executors at `maxTries = -2` with a concrete client
and transport. -/
theorem C10_nonpositive_maxTries_witness :
    RequestWithRetry StdClient [1] (fun _ => Except.error (GoError.generic 0))
      (fun _ => 0) (-2)
      = some { tries := -1, status := 0, body := [], err := none,
               sleeps := [], sentBodies := [] } ∧
    DoRequest StdClient [1] none (fun _ => Except.error (GoError.generic 0))
      (fun _ => 0) (-2)
      = some { tries := -1, status := 0, body := [], err := none,
               sleeps := [], sentBodies := [] } :=
  C10_nonpositive_maxTries StdClient [1] [1] none
    (fun _ => Except.error (GoError.generic 0)) (fun _ => 0) (-2) (by decide)

/-! ## C4 counterexample: RequestWithRetry reuses the request object -/

/-- C4 counterexample: `RequestWithRetry` does NOT materialize a fresh
request per attempt. With template body `[7]`, an always-500 transport
and `maxTries = 2`, the first send consumes the body stream and the
second attempt sends empty bytes: the trace of sent bodies is
`[[7], []]`, not `[[7], [7]]`. -/
theorem C4_counterexample :
    (RequestWithRetry { TimeoutOnly := false, BaseSleep := 1, MaxSleep := 10 } [7]
        (fun _ => Except.ok { StatusCode := 500, bodyBytes := [], readErr := none })
        (fun _ => 0) 2).map (fun res => res.sentBodies) = some [[7], []] := by
  rfl

/-! ## C7: the semaphore count invariant and Release behaviour -/

/-- C7: from a semaphore of capacity `n > 0`, every sequence of
Obtain/Release/Close operations keeps `count` between 0 and `capacity`
(counts are naturals, so only the upper bound is substantive) with the
capacity fixed at `n`; and `Release` never raises the count: with at
least one slot held it decrements and returns true, with none held it
returns false leaving the state unchanged. -/
theorem C7_semaphore_invariant (n : Nat) (hn : 0 < n) (ops : List SemOp) (s : Sem) :
    (((NewSemaphore n).run ops).Count ≤ ((NewSemaphore n).run ops).Capacity ∧
      ((NewSemaphore n).run ops).Capacity = n) ∧
    s.Release.2.count ≤ s.count ∧
    (1 ≤ s.count → s.Release = (true, { s with count := s.count - 1 })) ∧
    (s.count = 0 → s.Release = (false, s)) := by
  refine ⟨?_, ?_, ?_, ?_⟩
  · exact Sem.run_preserves ops (NewSemaphore n) (Nat.zero_le n)
  · unfold Sem.Release
    by_cases hc : 0 < s.count
    · rw [if_pos hc]
      show s.count - 1 ≤ s.count
      omega
    · rw [if_neg hc]
  · intro h1
    unfold Sem.Release
    rw [if_pos (by omega)]
  · intro h0
    unfold Sem.Release
    rw [if_neg (by omega)]

/-- C7 witness: capacity 5, a concrete operation sequence, and the
Release behaviour at the concrete state `count = 1, cap = 2`, open. -/
theorem C7_semaphore_invariant_witness :
    (((NewSemaphore 5).run [SemOp.obtain true, SemOp.obtain true, SemOp.release]).Count ≤
        ((NewSemaphore 5).run [SemOp.obtain true, SemOp.obtain true, SemOp.release]).Capacity ∧
      ((NewSemaphore 5).run [SemOp.obtain true, SemOp.obtain true, SemOp.release]).Capacity = 5) ∧
    (Sem.mk 1 2 false).Release.2.count ≤ (Sem.mk 1 2 false).count ∧
    (1 ≤ (Sem.mk 1 2 false).count →
      (Sem.mk 1 2 false).Release
        = (true, { Sem.mk 1 2 false with count := (Sem.mk 1 2 false).count - 1 })) ∧
    ((Sem.mk 1 2 false).count = 0 → (Sem.mk 1 2 false).Release = (false, Sem.mk 1 2 false)) :=
  C7_semaphore_invariant 5 (by decide)
    [SemOp.obtain true, SemOp.obtain true, SemOp.release] (Sem.mk 1 2 false)

/-! ## C8: Close is one-way and disables Obtain -/

/-- C8: Close is idempotent and one-way: after a Close, no matter what
operations follow, the semaphore reports closed, and any Obtain — with
any select resolution, so regardless of available capacity — returns
false with the state (hence the count) unchanged. -/
theorem C8_close_oneway (s : Sem) (ops : List SemOp) (a : Bool) :
    (s.Close.run ops).Closed = true ∧
    (s.Close.run ops).Obtain a = (false, s.Close.run ops) ∧
    s.Close.Close = s.Close := by
  have hcl : (s.Close.run ops).closed = true := Sem.run_closed ops s.Close rfl
  refine ⟨hcl, ?_, rfl⟩
  unfold Sem.Obtain
  rw [if_pos hcl]

/-! ## C2: exhausting the budget returns the last attempt's outcome -/

/-- C2: when every one of the `maxTries ≥ 1` attempts is retryable, both
executors return the LAST attempt's status, body and error unchanged —
a retryable status on the final attempt comes back as a status, not an
error — with reported retry count `maxTries - 1`. -/
theorem C2_exhaustion_returns_last (c : SafeClient)
    (transport : Int → Except GoError Response) (rng : Int → Int)
    (reqBody content : List Nat) (maxTries : Int)
    (hbase : 0 < c.toBackoff.BaseSleep) (hmt : 1 ≤ maxTries)
    (hall : ∀ j : Int, 0 ≤ j → j < maxTries →
      retryableOutcome c.TimeoutOnly (transport j) = true) :
    (∃ res, RequestWithRetry c reqBody transport rng maxTries = some res ∧
      res.tries = maxTries - 1 ∧
      res.status = (RequestWithClose (transport (maxTries - 1))).status ∧
      res.body = (RequestWithClose (transport (maxTries - 1))).body ∧
      res.err = (RequestWithClose (transport (maxTries - 1))).err) ∧
    (∃ res, DoRequest c content none transport rng maxTries = some res ∧
      res.tries = maxTries - 1 ∧
      res.status = (RequestWithClose (transport (maxTries - 1))).status ∧
      res.body = (RequestWithClose (transport (maxTries - 1))).body ∧
      res.err = (RequestWithClose (transport (maxTries - 1))).err) := by
  obtain ⟨n, hn⟩ : ∃ n, maxTries.toNat = n + 1 := ⟨maxTries.toNat - 1, by omega⟩
  constructor
  · unfold RequestWithRetry
    rw [hn]
    obtain ⟨res, hres, h1, h2, h3, h4, _, _⟩ :=
      retryLoop_exhaust c transport rng hbase n 0 0 0 [] none reqBody [] []
        (fun j hj1 hj2 => hall j hj1 (by push_cast at hj2; omega))
    have hidx : (0 : Int) + (n : Int) = maxTries - 1 := by omega
    rw [hidx] at h1 h2 h3 h4
    exact ⟨res, hres, h1, h2, h3, h4⟩
  · unfold DoRequest
    rw [hn]
    obtain ⟨res, hres, h1, h2, h3, h4, _, _⟩ :=
      doRequestLoop_exhaust c content transport rng hbase n 0 0 0 [] none [] []
        (fun j hj1 hj2 => hall j hj1 (by push_cast at hj2; omega))
    have hidx : (0 : Int) + (n : Int) = maxTries - 1 := by omega
    rw [hidx] at h1 h2 h3 h4
    exact ⟨res, hres, h1, h2, h3, h4⟩

/-- The spec's example client: base 10, max 50, timeout-only retries. -/
def clientBase10 : SafeClient :=
  { TimeoutOnly := true, BaseSleep := 10, MaxSleep := 50 }

/-- A transport that always returns http 500 with an empty body. -/
def alwaysServerErr : Int → Except GoError Response :=
  fun _ => Except.ok { StatusCode := 500, bodyBytes := [], readErr := none }

/-- C2 witness: always-500 handler, `maxTries = 5`: final status 500,
reported retries 4, nil error. -/
theorem C2_exhaustion_returns_last_witness :
    (∃ res, RequestWithRetry clientBase10 [] alwaysServerErr (fun _ => 0) 5 = some res ∧
      res.tries = 5 - 1 ∧
      res.status = (RequestWithClose (alwaysServerErr (5 - 1))).status ∧
      res.body = (RequestWithClose (alwaysServerErr (5 - 1))).body ∧
      res.err = (RequestWithClose (alwaysServerErr (5 - 1))).err) ∧
    (∃ res, DoRequest clientBase10 [] none alwaysServerErr (fun _ => 0) 5 = some res ∧
      res.tries = 5 - 1 ∧
      res.status = (RequestWithClose (alwaysServerErr (5 - 1))).status ∧
      res.body = (RequestWithClose (alwaysServerErr (5 - 1))).body ∧
      res.err = (RequestWithClose (alwaysServerErr (5 - 1))).err) :=
  C2_exhaustion_returns_last clientBase10 alwaysServerErr (fun _ => 0) [] [] 5
    (by decide) (by decide)
    (fun j h1 h2 => by
      show retryableOutcome clientBase10.TimeoutOnly
        (Except.ok { StatusCode := 500, bodyBytes := [], readErr := none }) = true
      decide)

/-! ## C3: fatal non-timeout errors vs retryable errors -/

/-- C3: after `k` retryable attempts, if attempt `k` fails with a
transport error `e`: (a) with `timeoutOnly` true and `e` not a timeout,
both executors return immediately — that attempt's status/body and the
error unchanged, retry count `k`, no sleep for this outcome (exactly `k`
sleeps) and no further attempt (exactly `k + 1` sends); (b) with
`timeoutOnly` false or `e` a timeout, and budget remaining, the attempt
is retried: at least `k + 1` sleeps and a further attempt (at least
`k + 2` sends). -/
theorem C3_fatal_vs_retryable_error (c : SafeClient)
    (transport : Int → Except GoError Response) (rng : Int → Int)
    (reqBody content : List Nat) (maxTries : Int) (k : Nat) (e : GoError)
    (hbase : 0 < c.toBackoff.BaseSleep)
    (hall : ∀ j : Int, 0 ≤ j → j < (k : Int) →
      retryableOutcome c.TimeoutOnly (transport j) = true)
    (herr : (RequestWithClose (transport (k : Int))).err = some e) :
    (c.TimeoutOnly = true → IsTimeoutErr e = false → (k : Int) < maxTries →
      (∃ res, RequestWithRetry c reqBody transport rng maxTries = some res ∧
        res.tries = (k : Int) ∧ res.err = some e ∧
        res.status = (RequestWithClose (transport (k : Int))).status ∧
        res.body = (RequestWithClose (transport (k : Int))).body ∧
        res.sleeps.length = k ∧ res.sentBodies.length = k + 1) ∧
      (∃ res, DoRequest c content none transport rng maxTries = some res ∧
        res.tries = (k : Int) ∧ res.err = some e ∧
        res.status = (RequestWithClose (transport (k : Int))).status ∧
        res.body = (RequestWithClose (transport (k : Int))).body ∧
        res.sleeps.length = k ∧ res.sentBodies.length = k + 1)) ∧
    ((c.TimeoutOnly = false ∨ IsTimeoutErr e = true) → (k : Int) + 1 < maxTries →
      (∃ res, RequestWithRetry c reqBody transport rng maxTries = some res ∧
        k + 1 ≤ res.sleeps.length ∧ k + 2 ≤ res.sentBodies.length) ∧
      (∃ res, DoRequest c content none transport rng maxTries = some res ∧
        k + 1 ≤ res.sleeps.length ∧ k + 2 ≤ res.sentBodies.length)) := by
  constructor
  · intro hTO hto hk
    have hcond : (!c.TimeoutOnly || IsTimeoutErr e) = false := by
      rw [hTO, hto]; rfl
    have hidx : (0 : Int) + (k : Int) = (k : Int) := by omega
    have herr0 : (RequestWithClose (transport ((0 : Int) + (k : Int)))).err = some e := by
      rw [hidx]; exact herr
    constructor
    · unfold RequestWithRetry
      obtain ⟨res, hres, h1, h2, h3, h4, h5, h6⟩ :=
        retryLoop_fatal c transport rng hbase e hcond k maxTries.toNat 0 0 0 [] none
          reqBody [] [] (by omega)
          (fun j hj1 hj2 => hall j hj1 (by push_cast at hj2 ⊢; omega)) herr0
      rw [hidx] at h1 h2 h3
      simp only [List.length_nil, Nat.zero_add] at h5 h6
      exact ⟨res, hres, h1, h4, h2, h3, h5, h6⟩
    · unfold DoRequest
      obtain ⟨res, hres, h1, h2, h3, h4, h5, h6⟩ :=
        doRequestLoop_fatal c content transport rng hbase e hcond k maxTries.toNat 0 0 0 []
          none [] [] (by omega)
          (fun j hj1 hj2 => hall j hj1 (by push_cast at hj2 ⊢; omega)) herr0
      rw [hidx] at h1 h2 h3
      simp only [List.length_nil, Nat.zero_add] at h5 h6
      exact ⟨res, hres, h1, h4, h2, h3, h5, h6⟩
  · intro hB hk
    have hrk : retryableOutcome c.TimeoutOnly (transport (k : Int)) = true := by
      unfold retryableOutcome
      simp only [herr]
      rcases hB with h | h
      · rw [h]; rfl
      · rw [h]; simp
    have hall1 : ∀ j : Int, 0 ≤ j → j < (0 : Int) + ((k + 1 : Nat) : Int) →
        retryableOutcome c.TimeoutOnly (transport j) = true := by
      intro j hj1 hj2
      push_cast at hj2
      by_cases hj : j < (k : Int)
      · exact hall j hj1 hj
      · have : j = (k : Int) := by omega
        rw [this]; exact hrk
    constructor
    · unfold RequestWithRetry
      obtain ⟨res, hres, hs1, hs2⟩ :=
        retryLoop_progress c transport rng hbase (k + 1) maxTries.toNat 0 0 0 [] none
          reqBody [] [] (by omega) hall1
      simp only [List.length_nil, Nat.zero_add] at hs1 hs2
      exact ⟨res, hres, hs1, hs2⟩
    · unfold DoRequest
      obtain ⟨res, hres, hs1, hs2⟩ :=
        doRequestLoop_progress c content transport rng hbase (k + 1) maxTries.toNat 0 0 0 []
          none [] [] (by omega) hall1
      simp only [List.length_nil, Nat.zero_add] at hs1 hs2
      exact ⟨res, hres, hs1, hs2⟩

/-- A transport whose attempt 0 yields http 500 and whose later attempts
fail with a non-timeout connection error. -/
def failSecondTransport : Int → Except GoError Response :=
  fun i =>
    if i ≤ 0 then Except.ok { StatusCode := 500, bodyBytes := [], readErr := none }
    else Except.error (GoError.netError false 7)

/-- A timeout-only client with base 1 and max 10. -/
def clientTO : SafeClient := { TimeoutOnly := true, BaseSleep := 1, MaxSleep := 10 }

/-- A retry-all-errors client with base 1 and max 10. -/
def clientAll : SafeClient := { TimeoutOnly := false, BaseSleep := 1, MaxSleep := 10 }

/-- C3 witness: with the 500-then-connection-error transport and
`maxTries = 3`, the timeout-only client stops fatally at attempt 1 (one
sleep, two sends, retry count 1) in both executors, while the
retry-all-errors client sleeps at least twice and sends at least three
times in both executors. -/
theorem C3_fatal_vs_retryable_error_witness :
    ((∃ res, RequestWithRetry clientTO [] failSecondTransport (fun _ => 0) 3 = some res ∧
        res.tries = ((1 : Nat) : Int) ∧ res.err = some (GoError.netError false 7) ∧
        res.status = (RequestWithClose (failSecondTransport ((1 : Nat) : Int))).status ∧
        res.body = (RequestWithClose (failSecondTransport ((1 : Nat) : Int))).body ∧
        res.sleeps.length = 1 ∧ res.sentBodies.length = 1 + 1) ∧
      (∃ res, DoRequest clientTO [] none failSecondTransport (fun _ => 0) 3 = some res ∧
        res.tries = ((1 : Nat) : Int) ∧ res.err = some (GoError.netError false 7) ∧
        res.status = (RequestWithClose (failSecondTransport ((1 : Nat) : Int))).status ∧
        res.body = (RequestWithClose (failSecondTransport ((1 : Nat) : Int))).body ∧
        res.sleeps.length = 1 ∧ res.sentBodies.length = 1 + 1)) ∧
    ((∃ res, RequestWithRetry clientAll [] failSecondTransport (fun _ => 0) 4 = some res ∧
        1 + 1 ≤ res.sleeps.length ∧ 1 + 2 ≤ res.sentBodies.length) ∧
      (∃ res, DoRequest clientAll [] none failSecondTransport (fun _ => 0) 4 = some res ∧
        1 + 1 ≤ res.sleeps.length ∧ 1 + 2 ≤ res.sentBodies.length)) :=
  ⟨(C3_fatal_vs_retryable_error clientTO failSecondTransport (fun _ => 0) [] [] 3 1
      (GoError.netError false 7) (by decide)
      (fun j h1 h2 => by
        have hj : j = 0 := by push_cast at h2; omega
        rw [hj]; decide)
      (by decide)).1 rfl rfl (by decide),
   (C3_fatal_vs_retryable_error clientAll failSecondTransport (fun _ => 0) [] [] 4 1
      (GoError.netError false 7) (by decide)
      (fun j h1 h2 => by
        have hj : j = 0 := by push_cast at h2; omega
        rw [hj]; decide)
      (by decide)).2 (Or.inl rfl) (by decide)⟩

/-! ## C4 amended: only DoRequest rebuilds the request per attempt -/

/-- C4 amended: `DoRequest` materializes a fresh request every attempt,
so the transport receives the full `content` on every send;
`RequestWithRetry` instead reuses the one materialized request, so the
transport receives the template body once and empty bytes on every
later attempt. -/
theorem C4_amended_sent_bodies (c : SafeClient)
    (transport : Int → Except GoError Response) (rng : Int → Int)
    (reqBody content : List Nat) (maxTries : Int)
    (hbase : 0 < c.toBackoff.BaseSleep) (hmt : 1 ≤ maxTries) :
    (∃ res m, DoRequest c content none transport rng maxTries = some res ∧
      res.sentBodies = List.replicate (m + 1) content) ∧
    (∃ res m, RequestWithRetry c reqBody transport rng maxTries = some res ∧
      res.sentBodies = reqBody :: List.replicate m []) := by
  have hf : 0 < maxTries.toNat := by omega
  constructor
  · obtain ⟨res, hres, _, hp⟩ :=
      doRequestLoop_sent_shape c content transport rng hbase maxTries.toNat 0 0 0 []
        none [] []
    obtain ⟨m, hm⟩ := hp hf
    exact ⟨res, m, hres, by simpa using hm⟩
  · obtain ⟨res, hres, _, hp⟩ :=
      retryLoop_sent_shape c transport rng hbase maxTries.toNat 0 0 0 [] none reqBody [] []
    obtain ⟨m, hm⟩ := hp hf
    exact ⟨res, m, hres, by simpa using hm⟩

/-- C4 amended witness: template body `[7]`, content `[9]`, always-500
transport, `maxTries = 2`. -/
theorem C4_amended_sent_bodies_witness :
    (∃ res m, DoRequest clientAll [9] none alwaysServerErr (fun _ => 0) 2 = some res ∧
      res.sentBodies = List.replicate (m + 1) [9]) ∧
    (∃ res m, RequestWithRetry clientAll [7] alwaysServerErr (fun _ => 0) 2 = some res ∧
      res.sentBodies = [7] :: List.replicate m []) :=
  C4_amended_sent_bodies clientAll alwaysServerErr (fun _ => 0) [7] [9] 2
    (by decide) (by decide)

end WebUtils
